import Mathlib

/-!
Verification of the HTTP/1.1 server core found in `src/` (request parsing,
routing, the route handlers, response serialization and the connection loop).
The Rust code is shallowly embedded: byte streams are `List Nat` (one `Nat`
per byte), strings stay `String`, the filesystem is an explicit association
list that every file operation threads through, and every fallible step
returns `Except`.
-/

/-- UTF-8 encoding of a single character, as in Rust's `String::into_bytes` /
`str::as_bytes` (scalar values are always valid, so no error cases). -/
def utf8EncodeChar (c : Char) : List Nat :=
  let n := c.toNat
  if n < 0x80 then [n]
  else if n < 0x800 then [0xC0 + n / 0x40, 0x80 + n % 0x40]
  else if n < 0x10000 then
    [0xE0 + n / 0x1000, 0x80 + (n / 0x40) % 0x40, 0x80 + n % 0x40]
  else
    [0xF0 + n / 0x40000, 0x80 + (n / 0x1000) % 0x40, 0x80 + (n / 0x40) % 0x40,
      0x80 + n % 0x40]

/-- The UTF-8 bytes of a string: what Rust's `str::as_bytes` /
`String::into_bytes` yields. -/
def strBytes (s : String) : List Nat :=
  s.data.flatMap utf8EncodeChar

/-- Lower-case a single ASCII letter, as `u8::to_ascii_lowercase` does:
only `A`–`Z` change, every other character is kept. -/
def asciiLowerChar (c : Char) : Char :=
  if 65 ≤ c.toNat ∧ c.toNat ≤ 90 then Char.ofNat (c.toNat + 32) else c

/-- Rust's `str::eq_ignore_ascii_case`. -/
def eqIgnoreAsciiCase (a b : String) : Bool :=
  decide (a.data.map asciiLowerChar = b.data.map asciiLowerChar)

/-- Rust's `str::split_once(c)`: the part before the first occurrence of `c`
and the part after it, or `none` when `c` does not occur. -/
def splitOnce (s : String) (c : Char) : Option (String × String) :=
  if s.data.any fun x => x == c then
    some (String.mk (s.data.takeWhile fun x => !(x == c)),
          String.mk ((s.data.dropWhile fun x => !(x == c)).drop 1))
  else none

/-- Rust's `str::trim` (drop whitespace at both ends). -/
def trimStr (s : String) : String :=
  String.mk (((s.data.dropWhile Char.isWhitespace).reverse.dropWhile
    Char.isWhitespace).reverse)

/-- `trim_line_ending` from `src/request.rs`: drop every trailing `\r` or
`\n` character (`trim_end_matches(['\r', '\n'])`). -/
def trimLineEnding (s : String) : String :=
  String.mk ((s.data.reverse.dropWhile (fun c => c = '\r' ∨ c = '\n')).reverse)

/-- Rust's `str::split_whitespace`, accumulator-based: maximal runs of
non-whitespace characters, with no empty tokens. -/
def splitWhitespaceAux : List Char → List Char → List (List Char)
  | [], acc => if acc.isEmpty then [] else [acc.reverse]
  | c :: cs, acc =>
    if c.isWhitespace then
      if acc.isEmpty then splitWhitespaceAux cs []
      else acc.reverse :: splitWhitespaceAux cs []
    else splitWhitespaceAux cs (c :: acc)

/-- Rust's `str::split_whitespace` on a `String`. -/
def splitWhitespaceStr (s : String) : List String :=
  (splitWhitespaceAux s.data []).map String.mk

-- ---------------------------------------------------------------------------
-- Response (src/response.rs)
-- ---------------------------------------------------------------------------

/-- `Response` from `src/response.rs`: status, reason, ordered headers,
body bytes, and the `status_only` flag for terse status-line-only replies. -/
structure Response where
  status_code : Nat
  reason : String
  headers : List (String × String)
  body : List Nat
  status_only : Bool
deriving DecidableEq

/-- `Response::new`. -/
def Response.new (status_code : Nat) (reason : String) : Response :=
  { status_code := status_code, reason := reason, headers := [], body := [],
    status_only := false }

/-- `Response::header`: append a `(key, value)` pair. -/
def Response.header (r : Response) (k v : String) : Response :=
  { r with headers := r.headers ++ [(k, v)] }

/-- `Response::body_bytes`: replace the body. -/
def Response.body_bytes (r : Response) (b : List Nat) : Response :=
  { r with body := b }

/-- `Response::ok_text`: 200 with `Content-Type: text/plain` and the given
text as body. -/
def Response.ok_text (b : String) : Response :=
  (((Response.new 200 "OK").header "Content-Type" "text/plain").body_bytes
    (strBytes b))

/-- `Response::not_found`: 404 with `Content-Type: text/plain` and the
9-byte body `Not Found`. -/
def Response.not_found : Response :=
  (((Response.new 404 "Not Found").header "Content-Type" "text/plain").body_bytes
    (strBytes "Not Found"))

/-- `Response::status_only` the constructor (renamed: the field of the same
name already takes `Response.status_only`). -/
def Response.statusOnly (status_code : Nat) (reason : String) : Response :=
  { status_code := status_code, reason := reason, headers := [], body := [],
    status_only := true }

/-- Modelled from the spec: `Response::created` is called by
`handle_file_post` in `src/handlers.rs` but is absent from
`src/response.rs`; per spec section 4.4 File-POST "returns 201 with no
body", i.e. a bare `HTTP/1.1 201 Created` status reply. -/
def Response.created : Response :=
  Response.statusOnly 201 "Created"

/-- One serialized header line without its terminator, Rust's
`write!(buf, "{}: {}", k, v)`. -/
def headerLineStr (k v : String) : String := k ++ ": " ++ v

/-- `has_content_length` as computed by the loop in `write_head`: some
header name equals `content-length` ASCII-case-insensitively. -/
def hasContentLength (headers : List (String × String)) : Bool :=
  headers.any fun kv => eqIgnoreAsciiCase kv.1 "content-length"

/-- The CRLF-terminated lines of `write_head`'s output, in order: the status
line, then (unless `status_only`) each header in insertion order, then the
injected `Content-Length` when asked for and none exists.  `write_head`
below flattens exactly this list. -/
def headLines (r : Response) (includeContentLength : Bool) : List String :=
  ("HTTP/1.1 " ++ toString r.status_code ++ " " ++ r.reason) ::
    (if r.status_only then []
     else
       (r.headers.map fun kv => headerLineStr kv.1 kv.2) ++
         (if includeContentLength && !hasContentLength r.headers then
            [headerLineStr "Content-Length" (toString r.body.length)]
          else []))

/-- Append `"\r\n"` after each line, as the successive `write!`s do. -/
def linesOut : List String → String
  | [] => ""
  | l :: ls => l ++ "\r\n" ++ linesOut ls

/-- `Response::write_head` from `src/response.rs`: status line, headers
(none when `status_only`), optional injected `Content-Length`, blank line. -/
def Response.write_head (r : Response) (includeContentLength : Bool) : String :=
  linesOut (headLines r includeContentLength) ++ "\r\n"

/-- `Response::build_raw`: head bytes, then the body unless `status_only`. -/
def Response.build_raw (r : Response) : List Nat :=
  strBytes (r.write_head true) ++ (if r.status_only then [] else r.body)

/-- `Response::build_headers_raw`: head bytes only. -/
def Response.build_headers_raw (r : Response) : List Nat :=
  strBytes (r.write_head true)

/-- Does a serialized line carry the name `Content-Length`
(ASCII-case-insensitively), i.e. is the part before the first `:` that
name? -/
def isContentLengthLine (l : String) : Bool :=
  match splitOnce l ':' with
  | some kv => eqIgnoreAsciiCase kv.1 "content-length"
  | none => false

-- ---------------------------------------------------------------------------
-- Filesystem model and route handlers (src/handlers.rs)
-- ---------------------------------------------------------------------------

/-- A directory entry under the served directory: a regular file with its
bytes, or a directory (anything `metadata.is_file()` rejects). -/
inductive FsEntry
  | file (content : List Nat)
  | dir
deriving DecidableEq

/-- The served directory, keyed by the filename passed to
`files_dir.join(filename)`. -/
structure FileSystem where
  entries : List (String × FsEntry)
deriving DecidableEq

/-- `tokio::fs::metadata` / `File::open` target lookup. -/
def FileSystem.lookup (fs : FileSystem) (name : String) : Option FsEntry :=
  (fs.entries.find? fun e => e.1 == name).map (·.2)

/-- `tokio::fs::write`: create the file or fully overwrite it. -/
def FileSystem.write (fs : FileSystem) (name : String) (content : List Nat) :
    FileSystem :=
  ⟨(name, FsEntry.file content) :: fs.entries.filter fun e => ¬ e.1 == name⟩

/-- A filesystem operation performed by a handler; `handle_files` returns
the list of operations it performed so that "touches the filesystem" is
observable. -/
inductive FsOp
  | metadata (name : String)
  | openFile (name : String)
  | writeFile (name : String)
deriving DecidableEq

/-- `Request` from `src/request.rs` (`peer_addr` is informational only and
is omitted). -/
structure Request where
  method : String
  path : String
  http_version : String
  headers : List (String × String)
  body : Option (List Nat)
deriving DecidableEq

/-- `Request::header_value`: first header whose name matches
ASCII-case-insensitively. -/
def header_value (headers : List (String × String)) (name : String) :
    Option String :=
  (headers.find? fun kv => eqIgnoreAsciiCase kv.1 name).map (·.2)

/-- Split a character list on `/`, keeping empty pieces (the raw split
underlying `Path::components`). -/
def splitSep : List Char → List (List Char)
  | [] => [[]]
  | c :: cs =>
    if c = '/' then [] :: splitSep cs
    else
      match splitSep cs with
      | [] => [[c]]
      | p :: ps => (c :: p) :: ps

/-- A Unix `std::path::Component`. -/
inductive PathComponent
  | rootDir
  | curDir
  | parentDir
  | normal (s : String)
deriving DecidableEq

/-- Unix `Path::components`: a leading `/` is `RootDir`; `.` survives only
as the first component of a rootless path; empty pieces (doubled or
trailing separators) vanish; `..` is `ParentDir`; everything else is
`Normal`. -/
def pathComponents (name : String) : List PathComponent :=
  let hasRoot := name.data.head? = some '/'
  let includeCur :=
    ¬ hasRoot ∧ (name.data = ['.'] ∨ name.data.take 2 = ['.', '/'])
  let parts := (splitSep name.data).filter (· ≠ [])
  (if hasRoot then [PathComponent.rootDir] else []) ++
    (if includeCur then [PathComponent.curDir] else []) ++
    parts.filterMap fun p =>
      if p = ['.'] then none
      else if p = ['.', '.'] then some PathComponent.parentDir
      else some (PathComponent.normal (String.mk p))

/-- `is_valid_single_filename` from `src/handlers.rs`: the first component
is `Normal` and there is no second component. -/
def is_valid_single_filename (name : String) : Bool :=
  match pathComponents name with
  | [PathComponent.normal _] => true
  | _ => false

/-- What routing produced: a `Response` the connection loop must write, or
(for file streaming) the head bytes and body bytes the handler already
wrote itself. -/
inductive RouteResult
  | response (r : Response)
  | streamed (head : List Nat) (fileBytes : List Nat)
deriving DecidableEq

def handle_root : Response := Response.ok_text ""

def handle_echo (echoed : String) : Response := Response.ok_text echoed

def handle_user_agent (request : Request) : Response :=
  match header_value request.headers "User-Agent" with
  | some ua => Response.ok_text ua
  | none => Response.not_found

/-- The 200 response `handle_file_get` builds before streaming:
`Content-Type: application/octet-stream` and `Content-Length` equal to the
file's byte length. -/
def fileGetResponse (len : Nat) : Response :=
  ((Response.new 200 "OK").header "Content-Type"
      "application/octet-stream").header "Content-Length" (toString len)

/-- `handle_file_get`: metadata lookup; 404 unless a regular file; else
write the headers and stream the file's bytes. -/
def handle_file_get (filename : String) (fs : FileSystem) :
    RouteResult × FileSystem × List FsOp :=
  match fs.lookup filename with
  | some (FsEntry.file content) =>
    (RouteResult.streamed ((fileGetResponse content.length).build_headers_raw)
        content,
      fs, [FsOp.metadata filename, FsOp.openFile filename])
  | _ => (RouteResult.response Response.not_found, fs, [FsOp.metadata filename])

/-- `handle_file_post`: write the request body (absent body = empty) to the
file, answer 201. -/
def handle_file_post (filename : String) (fs : FileSystem) (request : Request) :
    RouteResult × FileSystem × List FsOp :=
  let body := request.body.getD []
  (RouteResult.response Response.created, fs.write filename body,
    [FsOp.writeFile filename])

/-- `handle_files`: validate the filename first (404 and no filesystem
access on failure), then dispatch on the method. -/
def handle_files (filename : String) (fs : FileSystem) (request : Request) :
    RouteResult × FileSystem × List FsOp :=
  if is_valid_single_filename filename then
    match request.method with
    | "GET" => handle_file_get filename fs
    | "POST" => handle_file_post filename fs request
    | _ => (RouteResult.response Response.not_found, fs, [])
  else (RouteResult.response Response.not_found, fs, [])

/-- Rust's `str::strip_prefix` (on valid UTF-8 a byte prefix is a character
prefix). -/
def stripPrefixStr (s pre : String) : Option String :=
  if s.data.take pre.data.length = pre.data then
    some (String.mk (s.data.drop pre.data.length))
  else none

/-- `route` from `src/handlers.rs`: `/` exactly, then the `/echo/`,
`/user-agent` and `/files/` prefixes in that order, else 404. -/
def route (request : Request) (fs : FileSystem) :
    RouteResult × FileSystem × List FsOp :=
  if request.path = "/" then (RouteResult.response handle_root, fs, [])
  else
    match stripPrefixStr request.path "/echo/" with
    | some suffix => (RouteResult.response (handle_echo suffix), fs, [])
    | none =>
      if (stripPrefixStr request.path "/user-agent").isSome then
        (RouteResult.response (handle_user_agent request), fs, [])
      else
        match stripPrefixStr request.path "/files/" with
        | some filename => handle_files filename fs request
        | none => (RouteResult.response Response.not_found, fs, [])

-- ---------------------------------------------------------------------------
-- Request parser (src/request.rs) and connection loop (src/handlers.rs)
-- ---------------------------------------------------------------------------

deriving instance DecidableEq for Except

/-- The parser's failure modes (`anyhow` errors in the source). -/
inductive ParseError
  | connectionClosed
  | ioError
  | invalidRequestLine (line : String)
  | malformedHeader (line : String)
  | invalidContentLength
  | bodyTruncated
deriving DecidableEq

/-- `BufRead::read_line` framing: the bytes up to and including the first
`\n` (or up to EOF when there is none), and the remaining stream. -/
def readLineSplit : List Nat → List Nat × List Nat
  | [] => ([], [])
  | b :: bs =>
    if b = 10 then ([10], bs)
    else
      match readLineSplit bs with
      | (l, r) => (b :: l, r)

def isUtf8Cont (b : Nat) : Bool := 0x80 ≤ b && b ≤ 0xBF

/-- Strict UTF-8 decoding of a byte list (what `read_line` does when
turning the buffered bytes into a `String`): `none` on any invalid
sequence, including overlong forms and surrogates. -/
def utf8Decode : List Nat → Option (List Char)
  | [] => some []
  | b :: bs =>
    if b < 0x80 then
      match utf8Decode bs with
      | some cs => some (Char.ofNat b :: cs)
      | none => none
    else if 0xC2 ≤ b && b ≤ 0xDF then
      match bs with
      | b1 :: bs1 =>
        if isUtf8Cont b1 then
          match utf8Decode bs1 with
          | some cs => some (Char.ofNat ((b - 0xC0) * 0x40 + (b1 - 0x80)) :: cs)
          | none => none
        else none
      | [] => none
    else if 0xE0 ≤ b && b ≤ 0xEF then
      match bs with
      | b1 :: b2 :: bs2 =>
        let okB1 :=
          if b = 0xE0 then 0xA0 ≤ b1 && b1 ≤ 0xBF
          else if b = 0xED then 0x80 ≤ b1 && b1 ≤ 0x9F
          else isUtf8Cont b1
        if okB1 && isUtf8Cont b2 then
          match utf8Decode bs2 with
          | some cs =>
            some (Char.ofNat
              ((b - 0xE0) * 0x1000 + (b1 - 0x80) * 0x40 + (b2 - 0x80)) :: cs)
          | none => none
        else none
      | _ => none
    else if 0xF0 ≤ b && b ≤ 0xF4 then
      match bs with
      | b1 :: b2 :: b3 :: bs3 =>
        let okB1 :=
          if b = 0xF0 then 0x90 ≤ b1 && b1 ≤ 0xBF
          else if b = 0xF4 then 0x80 ≤ b1 && b1 ≤ 0x8F
          else isUtf8Cont b1
        if okB1 && isUtf8Cont b2 && isUtf8Cont b3 then
          match utf8Decode bs3 with
          | some cs =>
            some (Char.ofNat
              ((b - 0xF0) * 0x40000 + (b1 - 0x80) * 0x1000 +
                (b2 - 0x80) * 0x40 + (b3 - 0x80)) :: cs)
          | none => none
        else none
      | _ => none
    else none

/-- `read_request_line` from `src/request.rs`: one line; zero bytes read is
the `connection closed before request line` failure; otherwise split on
whitespace into exactly method, path, version. -/
def read_request_line (stream : List Nat) :
    Except ParseError ((String × String × String) × List Nat) :=
  let lb := (readLineSplit stream).1
  let rest := (readLineSplit stream).2
  if lb.length = 0 then Except.error ParseError.connectionClosed
  else
    match utf8Decode lb with
    | none => Except.error ParseError.ioError
    | some cs =>
      let trimmed := trimLineEnding (String.mk cs)
      match splitWhitespaceStr trimmed with
      | [m, p, v] => Except.ok ((m, p, v), rest)
      | _ => Except.error (ParseError.invalidRequestLine trimmed)

/-- `read_headers` from `src/request.rs`, fueled (each line consumes at
least one byte, so `stream.length + 1` fuel always suffices): lines until
a blank line or EOF; a line without `:` is malformed; name and value are
trimmed. -/
def read_headers_fuel :
    Nat → List Nat → Except ParseError (List (String × String) × List Nat)
  | _, [] => Except.ok ([], [])
  | 0, stream => Except.ok ([], stream)
  | fuel + 1, b :: bs =>
    let lb := (readLineSplit (b :: bs)).1
    let rest := (readLineSplit (b :: bs)).2
    match utf8Decode lb with
    | none => Except.error ParseError.ioError
    | some cs =>
      let trimmed := trimLineEnding (String.mk cs)
      if trimmed.data = [] then Except.ok ([], rest)
      else
        match splitOnce trimmed ':' with
        | none => Except.error (ParseError.malformedHeader trimmed)
        | some kv =>
          match read_headers_fuel fuel rest with
          | Except.error e => Except.error e
          | Except.ok (hs, rest2) =>
            Except.ok ((trimStr kv.1, trimStr kv.2) :: hs, rest2)

def read_headers (stream : List Nat) :
    Except ParseError (List (String × String) × List Nat) :=
  read_headers_fuel (stream.length + 1) stream

/-- The value of an ASCII digit. -/
def digitVal (c : Char) : Option Nat :=
  if 48 ≤ c.toNat ∧ c.toNat ≤ 57 then some (c.toNat - 48) else none

/-- Accumulate decimal digits; any non-digit fails. -/
def parseNatAux : List Char → Nat → Option Nat
  | [], acc => some acc
  | c :: cs, acc =>
    match digitVal c with
    | some d => parseNatAux cs (acc * 10 + d)
    | none => none

/-- Rust's `str::parse::<usize>`: optional leading `+`, then at least one
ASCII digit, nothing else, and the value must fit in 64 bits. -/
def parseUsize (s : String) : Option Nat :=
  let t := if s.data.head? = some '+' then s.data.drop 1 else s.data
  if t = [] then none
  else
    match parseNatAux t 0 with
    | some n => if n < 2 ^ 64 then some n else none
    | none => none

/-- The body-reading stage of `Request::from_stream` (src/request.rs lines
52-65): look up `Content-Length` case-insensitively (first match), parse
it (failure is fatal), and when positive read exactly that many bytes
(`read_exact`; running out of bytes is fatal). -/
def readBodyStage (headers : List (String × String)) (stream : List Nat) :
    Except ParseError (Option (List Nat) × List Nat) :=
  match header_value headers "Content-Length" with
  | none => Except.ok (none, stream)
  | some v =>
    match parseUsize v with
    | none => Except.error ParseError.invalidContentLength
    | some len =>
      if 0 < len then
        if len ≤ stream.length then
          Except.ok (some (stream.take len), stream.drop len)
        else Except.error ParseError.bodyTruncated
      else Except.ok (none, stream)

/-- `Request::from_stream`: request line, headers, then the body stage;
returns the request and the remaining stream. -/
def from_stream (stream : List Nat) : Except ParseError (Request × List Nat) :=
  match read_request_line stream with
  | Except.error e => Except.error e
  | Except.ok ((m, p, v), rest1) =>
    match read_headers rest1 with
    | Except.error e => Except.error e
    | Except.ok (hs, rest2) =>
      match readBodyStage hs rest2 with
      | Except.error e => Except.error e
      | Except.ok (body, rest3) =>
        Except.ok
          ({ method := m, path := p, http_version := v, headers := hs,
             body := body }, rest3)

/-- Modelled from the spec: `Request::from_reader` is called by the
connection loop in `src/handlers.rs` but is absent from `src/request.rs`.
Per spec sections 4.1 and 4.6, zero bytes read before the request line
(the parser's `connection closed before request line` outcome) signals
end of connection (`none`), while every other parse failure stays an
error. -/
def from_reader (stream : List Nat) :
    Except ParseError (Option (Request × List Nat)) :=
  match from_stream stream with
  | Except.error ParseError.connectionClosed => Except.ok none
  | Except.error e => Except.error e
  | Except.ok x => Except.ok (some x)

/-- `should_close` in `handle_request`: the `Connection` header, looked up
case-insensitively, has the value `close` case-insensitively. -/
def requestsClose (request : Request) : Bool :=
  match header_value request.headers "Connection" with
  | some v => eqIgnoreAsciiCase v "close"
  | none => false

/-- The bytes the loop puts on the wire for one routed request: the full
serialization for a returned `Response`, or head-then-file-bytes when the
handler streamed them itself. -/
def writtenOf : RouteResult → List Nat
  | RouteResult.response r => r.build_raw
  | RouteResult.streamed head fileBytes => head ++ fileBytes

/-- What one iteration of the connection loop in `handle_request` does. -/
inductive LoopOutcome
  | closed
  | closedAfter (written : List Nat) (fs' : FileSystem) (ops : List FsOp)
  | nextRequest (rest : List Nat) (written : List Nat) (fs' : FileSystem)
      (ops : List FsOp)
  | failed (e : ParseError)
deriving DecidableEq

/-- One iteration of the loop in `handle_request` (src/handlers.rs): parse
(`None` = clean EOF ends the loop), note `Connection: close`, route, write
the response, then either close or await the next request. -/
def loopStep (fs : FileSystem) (stream : List Nat) : LoopOutcome :=
  match from_reader stream with
  | Except.error e => LoopOutcome.failed e
  | Except.ok none => LoopOutcome.closed
  | Except.ok (some (request, rest)) =>
    let shouldClose := requestsClose request
    let routed := route request fs
    if shouldClose then
      LoopOutcome.closedAfter (writtenOf routed.1) routed.2.1 routed.2.2
    else
      LoopOutcome.nextRequest rest (writtenOf routed.1) routed.2.1 routed.2.2

/-- The whole `handle_request` loop, fueled by a bound on the number of
requests: returns all bytes written and the final filesystem, or the
parse error that tore the connection down. -/
def handle_request :
    Nat → FileSystem → List Nat → Except ParseError (List Nat × FileSystem)
  | 0, fs, _ => Except.ok ([], fs)
  | fuel + 1, fs, stream =>
    match loopStep fs stream with
    | LoopOutcome.failed e => Except.error e
    | LoopOutcome.closed => Except.ok ([], fs)
    | LoopOutcome.closedAfter written fs' _ => Except.ok (written, fs')
    | LoopOutcome.nextRequest rest written fs' _ =>
      match handle_request fuel fs' rest with
      | Except.error e => Except.error e
      | Except.ok (written2, fs'') => Except.ok (written ++ written2, fs'')

-- ---------------------------------------------------------------------------
-- Shared lemmas
-- ---------------------------------------------------------------------------

theorem strBytes_append (a b : String) :
    strBytes (a ++ b) = strBytes a ++ strBytes b := by
  simp [strBytes, String.data_append]

theorem linesOut_ends_with_crlf (ls : List String) (l : String) :
    ∃ t, strBytes (linesOut (l :: ls) ++ "\r\n") = t ++ strBytes "\r\n\r\n" := by
  induction ls generalizing l with
  | nil =>
    refine ⟨strBytes l, ?_⟩
    simp [linesOut, strBytes_append, strBytes]
  | cons l2 ls ih =>
    obtain ⟨t, ht⟩ := ih l2
    refine ⟨strBytes l ++ strBytes "\r\n" ++ t, ?_⟩
    simp only [linesOut, strBytes_append, List.append_assoc] at ht ⊢
    rw [ht]

theorem lookup_write_self (fs : FileSystem) (name : String) (content : List Nat) :
    (fs.write name content).lookup name = some (FsEntry.file content) := by
  simp [FileSystem.write, FileSystem.lookup, List.find?_cons_of_pos]

theorem takeWhile_append_cons {p : Char → Bool} (l1 : List Char) (c : Char)
    (l2 : List Char) (h1 : ∀ x ∈ l1, p x = true) (hc : p c = false) :
    (l1 ++ c :: l2).takeWhile p = l1 := by
  induction l1 with
  | nil => simp [List.takeWhile, hc]
  | cons a l1 ih =>
    have ha : p a = true := h1 a (List.mem_cons_self a l1)
    simp [List.takeWhile, ha, ih fun x hx => h1 x (List.mem_cons_of_mem a hx)]

theorem isContentLengthLine_headerLine (k v : String) (hk : ':' ∉ k.data) :
    isContentLengthLine (headerLineStr k v) =
      eqIgnoreAsciiCase k "content-length" := by
  have hdata : (headerLineStr k v).data = k.data ++ ':' :: ' ' :: v.data := by
    simp only [headerLineStr, String.data_append]
    simp [List.append_assoc]
  have hmem : ((headerLineStr k v).data.any fun x => x == ':') = true := by
    rw [hdata]
    simp
  have htake :
      ((headerLineStr k v).data.takeWhile fun x => !(x == ':')) = k.data := by
    rw [hdata]
    apply takeWhile_append_cons
    · intro x hx
      simp only [Bool.not_eq_true', beq_eq_false_iff_ne, ne_eq]
      exact fun h => hk (h ▸ hx)
    · simp
  simp only [isContentLengthLine, splitOnce, hmem, if_true]
  rw [htake]

theorem isContentLengthLine_false_of_head (l : String) (c : Char) (cs : List Char)
    (hdata : l.data = c :: cs) (hc : c ≠ ':') (hlow : asciiLowerChar c ≠ 'c') :
    isContentLengthLine l = false := by
  cases hmem : l.data.any fun x => x == ':' with
  | false => simp [isContentLengthLine, splitOnce, hmem]
  | true =>
    have hcb : (c == ':') = false := by simp [hc]
    have htake : (l.data.takeWhile fun x => !(x == ':')) =
        c :: (cs.takeWhile fun x => !(x == ':')) := by
      rw [hdata]
      simp [List.takeWhile, hcb]
    simp only [isContentLengthLine, splitOnce, hmem, if_true]
    rw [htake]
    simp only [eqIgnoreAsciiCase, decide_eq_false_iff_not]
    intro h
    rw [List.map_cons, List.map_cons] at h
    have hc' : asciiLowerChar 'c' = 'c' := by decide
    exact hlow (((List.cons.injEq _ _ _ _).mp h).1.trans hc')

theorem statusLine_head (code : Nat) (reason : String) :
    ∃ cs, ("HTTP/1.1 " ++ toString code ++ " " ++ reason).data = 'H' :: cs := by
  refine ⟨"TTP/1.1 ".data ++ (toString code).data ++ " ".data ++ reason.data, ?_⟩
  have h1 : ("HTTP/1.1 " : String).data = 'H' :: "TTP/1.1 ".data := rfl
  simp [String.data_append, h1]

theorem isContentLengthLine_statusLine (code : Nat) (reason : String) :
    isContentLengthLine ("HTTP/1.1 " ++ toString code ++ " " ++ reason) = false := by
  obtain ⟨cs, hcs⟩ := statusLine_head code reason
  exact isContentLengthLine_false_of_head _ 'H' cs hcs (by decide) (by decide)

theorem find?_first_match {α : Type} (p : α → Bool) (pre post : List α) (x : α)
    (hpre : ∀ y ∈ pre, p y = false) (hx : p x = true) :
    (pre ++ x :: post).find? p = some x := by
  induction pre with
  | nil => simpa using List.find?_cons_of_pos post hx
  | cons a pre ih =>
    have ha : p a = false := hpre a (List.mem_cons_self a pre)
    rw [List.cons_append, List.find?_cons_of_neg _ (by simp [ha])]
    exact ih fun y hy => hpre y (List.mem_cons_of_mem a hy)

-- ---------------------------------------------------------------------------
-- Claim theorems
-- ---------------------------------------------------------------------------

/-- C3 (counterexample): the claim quantifies over every `Response`; for a
status-only response carrying a (caller-set) body, `build_raw` omits the
body, so the full serialization is **not** the header serialization
followed by the body bytes. -/
theorem c3_full_is_head_plus_body_counterexample :
    ((Response.statusOnly 200 "OK").body_bytes [0]).build_raw ≠
      ((Response.statusOnly 200 "OK").body_bytes [0]).build_headers_raw ++
        ((Response.statusOnly 200 "OK").body_bytes [0]).body := by
  decide

/-- C3 (amended): for every `Response`, the header-only serialization is a
prefix of the full serialization and ends with the CRLF CRLF blank line,
and the full serialization is the header-only serialization followed by
the body bytes — except that a status-only response omits the body. -/
theorem c3_headers_prefix_of_full (r : Response) :
    r.build_headers_raw <+: r.build_raw ∧
    (∃ t, r.build_headers_raw = t ++ strBytes "\r\n\r\n") ∧
    r.build_raw = r.build_headers_raw ++ (if r.status_only then [] else r.body) := by
  refine ⟨⟨if r.status_only then [] else r.body, rfl⟩, ?_, rfl⟩
  exact linesOut_ends_with_crlf _ _

/-- C8 (counterexample): the status-only 404 serialization is 26 bytes,
not 28 as the claim counts them. -/
theorem c8_status_only_404_counterexample :
    (Response.statusOnly 404 "Not Found").build_raw.length ≠ 28 := by
  decide

/-- C8 (amended): any `Response` with code 404, reason `Not Found` and the
`status_only` flag — whatever headers or body were set on it — serializes
to exactly the 26 bytes `HTTP/1.1 404 Not Found` CRLF CRLF. -/
theorem c8_status_only_404_exact (hs : List (String × String)) (b : List Nat) :
    ({ status_code := 404, reason := "Not Found", headers := hs, body := b,
        status_only := true } : Response).build_raw =
      strBytes "HTTP/1.1 404 Not Found\r\n\r\n" ∧
    (strBytes "HTTP/1.1 404 Not Found\r\n\r\n").length = 26 := by
  constructor
  · simp only [Response.build_raw, Response.write_head, headLines, if_true,
      linesOut, List.append_nil]
    decide
  · decide

/-- C1 (counterexample): `a..b` contains `..` as a substring, yet
`is_valid_single_filename` accepts it (it is a single normal path
component), so `GET /files/a..b` performs a filesystem metadata lookup
rather than returning 404 untouched. -/
theorem c1_traversal_guard_counterexample :
    ("a..b" : String).data = ['a'] ++ ['.', '.'] ++ ['b'] ∧
    (handle_files "a..b" ⟨[]⟩
        { method := "GET", path := "/files/a..b", http_version := "HTTP/1.1",
          headers := [], body := none }).2.2 ≠ [] := by
  exact ⟨rfl, by decide⟩

/-- C1 (amended): whenever the validator rejects the filename — i.e. it is
not exactly one normal path component (empty, `.`, `..`, absolute, or
containing a component separator); note `a..b` and a trailing `/` are
accepted as single components — the file route answers 404 with the
filesystem untouched (no operation performed, state unchanged). -/
theorem c1_invalid_filename_rejected (name : String) (fs : FileSystem)
    (request : Request) (h : is_valid_single_filename name = false) :
    handle_files name fs request =
      (RouteResult.response Response.not_found, fs, []) ∧
    Response.not_found.status_code = 404 := by
  refine ⟨?_, rfl⟩
  simp [handle_files, h]

/-- C1 witness. -/
theorem c1_invalid_filename_rejected_witness :
    is_valid_single_filename "../etc/passwd" = false ∧
    (handle_files "../etc/passwd" ⟨[]⟩
        { method := "GET", path := "/files/../etc/passwd",
          http_version := "HTTP/1.1", headers := [], body := none } =
      (RouteResult.response Response.not_found, ⟨[]⟩, []) ∧
    Response.not_found.status_code = 404) :=
  ⟨by decide, c1_invalid_filename_rejected "../etc/passwd" ⟨[]⟩ _ (by decide)⟩

/-- C5: a request whose path is `/echo/` followed by any string `s`
(including the empty string) routes to a 200 response whose body is
exactly the bytes of `s`, with no decoding of any kind. -/
theorem c5_echo_roundtrip (s : String) (request : Request) (fs : FileSystem)
    (h : request.path = "/echo/" ++ s) :
    route request fs = (RouteResult.response (Response.ok_text s), fs, []) ∧
    (Response.ok_text s).status_code = 200 ∧
    (Response.ok_text s).body = strBytes s := by
  have hdata : request.path.data = "/echo/".data ++ s.data := by
    rw [h, String.data_append]
  have hne : ¬ request.path = "/" := by
    intro heq
    have hlen : request.path.data.length = 1 := by rw [heq]; rfl
    rw [hdata, List.length_append] at hlen
    have h6 : ("/echo/" : String).data.length = 6 := rfl
    rw [h6] at hlen
    omega
  have hstrip : stripPrefixStr request.path "/echo/" = some s := by
    have hlen6 : ("/echo/" : String).data.length = 6 := rfl
    simp only [stripPrefixStr, hdata, hlen6]
    rw [show ("/echo/" : String).data ++ s.data =
      ("/echo/" : String).data ++ s.data from rfl]
    rw [show (6 : Nat) = ("/echo/" : String).data.length from rfl]
    rw [List.take_left, List.drop_left]
    simp
  refine ⟨?_, rfl, rfl⟩
  simp [route, hne, hstrip, handle_echo]

/-- C5 witness. -/
theorem c5_echo_roundtrip_witness :
    (⟨"GET", "/echo/abc", "HTTP/1.1", [], none⟩ : Request).path =
      "/echo/" ++ "abc" ∧
    (route (⟨"GET", "/echo/abc", "HTTP/1.1", [], none⟩ : Request) ⟨[]⟩ =
      (RouteResult.response (Response.ok_text "abc"), ⟨[]⟩, []) ∧
    (Response.ok_text "abc").status_code = 200 ∧
    (Response.ok_text "abc").body = strBytes "abc") :=
  ⟨by decide, c5_echo_roundtrip "abc" _ ⟨[]⟩ (by decide)⟩

/-- C4: for a filename the validator accepts, POSTing any byte sequence as
the body and then GETting the same name (with no intervening change — the
GET runs on exactly the filesystem the POST produced) streams a 200
response whose body bytes are identical to what was POSTed. -/
theorem c4_post_get_roundtrip (name : String) (b : List Nat) (fs : FileSystem)
    (reqPost reqGet : Request)
    (hname : is_valid_single_filename name = true)
    (hmP : reqPost.method = "POST") (hbP : reqPost.body = some b)
    (hmG : reqGet.method = "GET") :
    handle_files name ((handle_files name fs reqPost).2.1) reqGet =
      (RouteResult.streamed ((fileGetResponse b.length).build_headers_raw) b,
        (handle_files name fs reqPost).2.1,
        [FsOp.metadata name, FsOp.openFile name]) ∧
    (fileGetResponse b.length).status_code = 200 := by
  have hpost : handle_files name fs reqPost =
      (RouteResult.response Response.created, fs.write name b,
        [FsOp.writeFile name]) := by
    simp [handle_files, hname, hmP, handle_file_post, hbP]
  rw [hpost]
  refine ⟨?_, rfl⟩
  simp [handle_files, hname, hmG, handle_file_get, lookup_write_self]

/-- C4 witness. -/
theorem c4_post_get_roundtrip_witness :
    (is_valid_single_filename "hello.txt" = true ∧
      (⟨"POST", "/files/hello.txt", "HTTP/1.1", [("Content-Length", "2")],
          some [104, 200]⟩ : Request).method = "POST" ∧
      (⟨"POST", "/files/hello.txt", "HTTP/1.1", [("Content-Length", "2")],
          some [104, 200]⟩ : Request).body = some [104, 200] ∧
      (⟨"GET", "/files/hello.txt", "HTTP/1.1", [], none⟩ : Request).method =
        "GET") ∧
    (handle_files "hello.txt"
        ((handle_files "hello.txt" ⟨[]⟩
          (⟨"POST", "/files/hello.txt", "HTTP/1.1", [("Content-Length", "2")],
            some [104, 200]⟩ : Request)).2.1)
        (⟨"GET", "/files/hello.txt", "HTTP/1.1", [], none⟩ : Request) =
      (RouteResult.streamed ((fileGetResponse 2).build_headers_raw) [104, 200],
        (handle_files "hello.txt" ⟨[]⟩
          (⟨"POST", "/files/hello.txt", "HTTP/1.1", [("Content-Length", "2")],
            some [104, 200]⟩ : Request)).2.1,
        [FsOp.metadata "hello.txt", FsOp.openFile "hello.txt"]) ∧
    (fileGetResponse ([104, 200] : List Nat).length).status_code = 200) :=
  ⟨⟨by decide, rfl, rfl, rfl⟩,
    c4_post_get_roundtrip "hello.txt" [104, 200] ⟨[]⟩ _ _ (by decide) rfl rfl
      rfl⟩

/-- C10: when several headers carry the name `Content-Length`
(case-insensitively), the parser's body stage uses the value of the first
one in received order — the statement does not depend on the later
duplicates (`post` and their values are arbitrary). -/
theorem c10_first_content_length_wins (pre post : List (String × String))
    (k v : String) (n : Nat) (stream : List Nat)
    (hpre : ∀ kv ∈ pre, eqIgnoreAsciiCase kv.1 "Content-Length" = false)
    (hk : eqIgnoreAsciiCase k "Content-Length" = true)
    (hv : parseUsize v = some n) :
    header_value (pre ++ (k, v) :: post) "Content-Length" = some v ∧
    readBodyStage (pre ++ (k, v) :: post) stream =
      (if 0 < n then
        (if n ≤ stream.length then
          Except.ok (some (stream.take n), stream.drop n)
        else Except.error ParseError.bodyTruncated)
      else Except.ok (none, stream)) := by
  have hfind : header_value (pre ++ (k, v) :: post) "Content-Length" = some v := by
    unfold header_value
    rw [find?_first_match _ pre post (k, v) (fun y hy => hpre y hy) hk]
    rfl
  refine ⟨hfind, ?_⟩
  simp only [readBodyStage, hfind, hv]

/-- C10 witness. -/
theorem c10_first_content_length_wins_witness :
    ((∀ kv ∈ [("Host", "h")],
        eqIgnoreAsciiCase kv.1 "Content-Length" = false) ∧
      eqIgnoreAsciiCase "content-LENGTH" "Content-Length" = true ∧
      parseUsize "3" = some 3) ∧
    (header_value [("Host", "h"), ("content-LENGTH", "3"),
        ("Content-Length", "99")] "Content-Length" = some "3" ∧
    readBodyStage [("Host", "h"), ("content-LENGTH", "3"),
        ("Content-Length", "99")] [1, 2, 3, 4] =
      (if 0 < 3 then
        (if 3 ≤ ([1, 2, 3, 4] : List Nat).length then
          Except.ok (some (([1, 2, 3, 4] : List Nat).take 3),
            ([1, 2, 3, 4] : List Nat).drop 3)
        else Except.error ParseError.bodyTruncated)
      else Except.ok (none, [1, 2, 3, 4]))) :=
  ⟨⟨by decide, by decide, by decide⟩,
    c10_first_content_length_wins [("Host", "h")] [("Content-Length", "99")]
      "content-LENGTH" "3" 3 [1, 2, 3, 4] (by decide) (by decide) (by decide)⟩

theorem handle_files_404_shape (filename : String) (fs : FileSystem)
    (request : Request) (r : Response) (fs' : FileSystem) (ops : List FsOp)
    (h : handle_files filename fs request = (RouteResult.response r, fs', ops))
    (h404 : r.status_code = 404) : r = Response.not_found := by
  cases hv : is_valid_single_filename filename with
  | false =>
    simp only [handle_files, hv, Bool.false_eq_true, if_false, Prod.mk.injEq,
      RouteResult.response.injEq] at h
    exact h.1.symm
  | true =>
    simp only [handle_files, hv, if_true] at h
    split at h
    · simp only [handle_file_get] at h
      split at h
      · simp at h
      · simp only [Prod.mk.injEq, RouteResult.response.injEq] at h
        exact h.1.symm
    · simp only [handle_file_post, Prod.mk.injEq, RouteResult.response.injEq]
        at h
      rw [← h.1] at h404
      exact absurd h404 (by decide)
    · simp only [Prod.mk.injEq, RouteResult.response.injEq] at h
      exact h.1.symm

/-- C9: every 404 the router or a handler hands back as a `Response` is the
full `not_found` response (never the status-only form): it carries
`Content-Type: text/plain`, the injected `Content-Length: 9`, and the
9-byte body `Not Found`, and its serialization is byte-exact. -/
theorem c9_router_404_is_full_not_found (request : Request) (fs : FileSystem)
    (r : Response) (fs' : FileSystem) (ops : List FsOp)
    (hroute : route request fs = (RouteResult.response r, fs', ops))
    (h404 : r.status_code = 404) :
    r = Response.not_found ∧ Response.not_found.status_only = false ∧
    Response.not_found.build_raw =
      strBytes
        "HTTP/1.1 404 Not Found\r\nContent-Type: text/plain\r\nContent-Length: 9\r\n\r\n"
        ++ strBytes "Not Found" := by
  refine ⟨?_, rfl, by decide⟩
  simp only [route] at hroute
  split at hroute
  · simp only [Prod.mk.injEq, RouteResult.response.injEq] at hroute
    rw [← hroute.1] at h404
    exact absurd h404 (by decide)
  · split at hroute
    · simp only [Prod.mk.injEq, RouteResult.response.injEq] at hroute
      rw [← hroute.1] at h404
      simp [handle_echo, Response.ok_text, Response.header, Response.body_bytes,
        Response.new] at h404
    · split at hroute
      · simp only [Prod.mk.injEq, RouteResult.response.injEq] at hroute
        rw [← hroute.1] at h404
        cases hua : header_value request.headers "User-Agent" with
        | some ua =>
          simp [handle_user_agent, hua, Response.ok_text, Response.header,
            Response.body_bytes, Response.new] at h404
        | none =>
          have : Response.not_found = r := by
            rw [← hroute.1]
            simp [handle_user_agent, hua]
          exact this.symm
      · split at hroute
        · exact handle_files_404_shape _ _ _ _ _ _ hroute h404
        · simp only [Prod.mk.injEq, RouteResult.response.injEq] at hroute
          exact hroute.1.symm

/-- C9 witness. -/
theorem c9_router_404_is_full_not_found_witness :
    (route (⟨"GET", "/nothing-here", "HTTP/1.1", [], none⟩ : Request) ⟨[]⟩ =
      (RouteResult.response Response.not_found, ⟨[]⟩, []) ∧
    Response.not_found.status_code = 404) ∧
    (Response.not_found = Response.not_found ∧
    Response.not_found.status_only = false ∧
    Response.not_found.build_raw =
      strBytes
        "HTTP/1.1 404 Not Found\r\nContent-Type: text/plain\r\nContent-Length: 9\r\n\r\n"
        ++ strBytes "Not Found") :=
  ⟨⟨by decide, rfl⟩,
    c9_router_404_is_full_not_found
      (⟨"GET", "/nothing-here", "HTTP/1.1", [], none⟩ : Request) ⟨[]⟩
      Response.not_found ⟨[]⟩ [] (by decide) rfl⟩

/-- C6: for every successfully parsed request, the connection loop closes
the connection right after writing that request's response when the
request asks `Connection: close` (case-insensitive name and value) —
reading no further request — and otherwise loops back to await the next
request on the remaining stream. -/
theorem c6_connection_close_semantics (fs : FileSystem)
    (stream rest : List Nat) (request : Request) (fuel : Nat)
    (h : from_reader stream = Except.ok (some (request, rest))) :
    (requestsClose request = true →
      loopStep fs stream =
        LoopOutcome.closedAfter (writtenOf (route request fs).1)
          (route request fs).2.1 (route request fs).2.2 ∧
      handle_request (fuel + 1) fs stream =
        Except.ok (writtenOf (route request fs).1, (route request fs).2.1)) ∧
    (requestsClose request = false →
      loopStep fs stream =
        LoopOutcome.nextRequest rest (writtenOf (route request fs).1)
          (route request fs).2.1 (route request fs).2.2) := by
  constructor
  · intro hc
    have hstep : loopStep fs stream =
        LoopOutcome.closedAfter (writtenOf (route request fs).1)
          (route request fs).2.1 (route request fs).2.2 := by
      simp [loopStep, h, hc]
    exact ⟨hstep, by simp [handle_request, hstep]⟩
  · intro hc
    simp [loopStep, h, hc]

/-- C6 witness. -/
theorem c6_connection_close_semantics_witness :
    from_reader (strBytes "GET / HTTP/1.1\r\nConnection: close\r\n\r\n") =
      Except.ok (some
        ((⟨"GET", "/", "HTTP/1.1", [("Connection", "close")], none⟩ : Request),
          [])) ∧
    ((requestsClose
        (⟨"GET", "/", "HTTP/1.1", [("Connection", "close")], none⟩ : Request) =
        true →
      loopStep ⟨[]⟩ (strBytes "GET / HTTP/1.1\r\nConnection: close\r\n\r\n") =
        LoopOutcome.closedAfter
          (writtenOf (route
            (⟨"GET", "/", "HTTP/1.1", [("Connection", "close")], none⟩ :
              Request) ⟨[]⟩).1)
          (route (⟨"GET", "/", "HTTP/1.1", [("Connection", "close")], none⟩ :
            Request) ⟨[]⟩).2.1
          (route (⟨"GET", "/", "HTTP/1.1", [("Connection", "close")], none⟩ :
            Request) ⟨[]⟩).2.2 ∧
      handle_request 1 ⟨[]⟩
          (strBytes "GET / HTTP/1.1\r\nConnection: close\r\n\r\n") =
        Except.ok
          (writtenOf (route
            (⟨"GET", "/", "HTTP/1.1", [("Connection", "close")], none⟩ :
              Request) ⟨[]⟩).1,
          (route (⟨"GET", "/", "HTTP/1.1", [("Connection", "close")], none⟩ :
            Request) ⟨[]⟩).2.1)) ∧
    (requestsClose
        (⟨"GET", "/", "HTTP/1.1", [("Connection", "close")], none⟩ : Request) =
        false →
      loopStep ⟨[]⟩ (strBytes "GET / HTTP/1.1\r\nConnection: close\r\n\r\n") =
        LoopOutcome.nextRequest []
          (writtenOf (route
            (⟨"GET", "/", "HTTP/1.1", [("Connection", "close")], none⟩ :
              Request) ⟨[]⟩).1)
          (route (⟨"GET", "/", "HTTP/1.1", [("Connection", "close")], none⟩ :
            Request) ⟨[]⟩).2.1
          (route (⟨"GET", "/", "HTTP/1.1", [("Connection", "close")], none⟩ :
            Request) ⟨[]⟩).2.2)) :=
  ⟨by decide,
    c6_connection_close_semantics ⟨[]⟩
      (strBytes "GET / HTTP/1.1\r\nConnection: close\r\n\r\n") []
      (⟨"GET", "/", "HTTP/1.1", [("Connection", "close")], none⟩ : Request) 0
      (by decide)⟩

/-- C7: a clean EOF before any request-line byte makes the connection loop
terminate normally (closed, no error), while every parse failure makes
both the single step and the whole loop surface that error — an outcome
distinct from the normal close. -/
theorem c7_clean_eof_closes_loop (fs : FileSystem) (fuel : Nat)
    (stream : List Nat) (e : ParseError)
    (herr : from_reader stream = Except.error e) :
    (loopStep fs [] = LoopOutcome.closed ∧
      handle_request (fuel + 1) fs [] = Except.ok ([], fs)) ∧
    (loopStep fs stream = LoopOutcome.failed e ∧
      handle_request (fuel + 1) fs stream = Except.error e ∧
      LoopOutcome.failed e ≠ LoopOutcome.closed) := by
  have hnil : from_reader ([] : List Nat) = Except.ok none := rfl
  have hstep : loopStep fs stream = LoopOutcome.failed e := by
    simp [loopStep, herr]
  refine ⟨⟨by simp [loopStep, hnil], ?_⟩, hstep, ?_, by simp⟩
  · simp [handle_request, loopStep, hnil]
  · simp [handle_request, hstep]

/-- C7 witness. -/
theorem c7_clean_eof_closes_loop_witness :
    from_reader (strBytes "BAD\r\n\r\n") =
      Except.error (ParseError.invalidRequestLine "BAD") ∧
    ((loopStep ⟨[]⟩ [] = LoopOutcome.closed ∧
      handle_request 1 ⟨[]⟩ [] = Except.ok ([], ⟨[]⟩)) ∧
    (loopStep ⟨[]⟩ (strBytes "BAD\r\n\r\n") =
        LoopOutcome.failed (ParseError.invalidRequestLine "BAD") ∧
      handle_request 1 ⟨[]⟩ (strBytes "BAD\r\n\r\n") =
        Except.error (ParseError.invalidRequestLine "BAD") ∧
      LoopOutcome.failed (ParseError.invalidRequestLine "BAD") ≠
        LoopOutcome.closed)) :=
  ⟨by decide,
    c7_clean_eof_closes_loop ⟨[]⟩ 0 (strBytes "BAD\r\n\r\n")
      (ParseError.invalidRequestLine "BAD") (by decide)⟩

theorem filter_isCL_headerlines (hs : List (String × String))
    (hn : ∀ kv ∈ hs, ':' ∉ kv.1.data) :
    (hs.map fun kv => headerLineStr kv.1 kv.2).filter isContentLengthLine =
      (hs.filter fun kv => eqIgnoreAsciiCase kv.1 "content-length").map
        fun kv => headerLineStr kv.1 kv.2 := by
  induction hs with
  | nil => rfl
  | cons kv tl ih =>
    have hk := hn kv (List.mem_cons_self kv tl)
    have ihh := ih fun y hy => hn y (List.mem_cons_of_mem kv hy)
    cases hcase : eqIgnoreAsciiCase kv.1 "content-length" <;>
      simp [List.filter_cons, hcase,
        isContentLengthLine_headerLine kv.1 kv.2 hk, ihh]

/-- C2 (amended): in the full serializer's head (whose CRLF-delimited lines
are exactly `headLines r true`, first conjunct), for wire-valid header
names (no `:` inside a name): when no caller header is named
`Content-Length` (case-insensitively), the Content-Length lines of the
output are exactly the one injected line `Content-Length: {body.length}`;
when the caller did set such headers, they are exactly the caller's own
lines, in order — nothing injected, nothing overridden.  (A caller that
itself sets two `Content-Length` headers gets both; see the
counterexample.) -/
theorem c2_content_length_lines (r : Response) (hso : r.status_only = false)
    (hnames : ∀ kv ∈ r.headers, ':' ∉ kv.1.data) :
    Response.write_head r true = linesOut (headLines r true) ++ "\r\n" ∧
    (headLines r true).filter isContentLengthLine =
      (if hasContentLength r.headers then
        (r.headers.filter fun kv => eqIgnoreAsciiCase kv.1 "content-length").map
          fun kv => headerLineStr kv.1 kv.2
      else [headerLineStr "Content-Length" (toString r.body.length)]) := by
  refine ⟨rfl, ?_⟩
  have hstatus := isContentLengthLine_statusLine r.status_code r.reason
  simp only [headLines, hso, Bool.false_eq_true, if_false, List.filter_cons,
    hstatus]
  rw [List.filter_append, filter_isCL_headerlines r.headers hnames]
  cases hcl : hasContentLength r.headers with
  | true => simp [hcl]
  | false =>
    have hinj : isContentLengthLine
        (headerLineStr "Content-Length" (toString r.body.length)) = true := by
      rw [isContentLengthLine_headerLine _ _ (by decide)]
      decide
    have hnone :
        (r.headers.filter fun kv => eqIgnoreAsciiCase kv.1 "content-length") =
          [] := by
      rw [List.filter_eq_nil_iff]
      intro a ha
      have hall := List.any_eq_false.mp hcl a ha
      simpa using hall
    simp [hcl, hinj, hnone]

/-- C2 (counterexample): a response on which the caller set two
`Content-Length` headers serializes with two `Content-Length` header
lines — the serializer suppresses only its own injection, it never
de-duplicates caller headers. -/
theorem c2_duplicate_content_length_counterexample :
    (headLines
        (⟨200, "OK", [("Content-Length", "1"), ("Content-Length", "2")], [],
          false⟩ : Response) true).countP isContentLengthLine = 2 ∧
    Response.write_head
        (⟨200, "OK", [("Content-Length", "1"), ("Content-Length", "2")], [],
          false⟩ : Response) true =
      "HTTP/1.1 200 OK\r\nContent-Length: 1\r\nContent-Length: 2\r\n\r\n" :=
  ⟨by decide, by decide⟩

/-- C2 witness. -/
theorem c2_content_length_lines_witness :
    ((⟨200, "OK", [("Content-Type", "text/plain")], [1, 2, 3], false⟩ :
        Response).status_only = false ∧
      ∀ kv ∈ (⟨200, "OK", [("Content-Type", "text/plain")], [1, 2, 3], false⟩ :
        Response).headers, ':' ∉ kv.1.data) ∧
    (Response.write_head
        (⟨200, "OK", [("Content-Type", "text/plain")], [1, 2, 3], false⟩ :
          Response) true =
      linesOut (headLines
        (⟨200, "OK", [("Content-Type", "text/plain")], [1, 2, 3], false⟩ :
          Response) true) ++ "\r\n" ∧
    (headLines
        (⟨200, "OK", [("Content-Type", "text/plain")], [1, 2, 3], false⟩ :
          Response) true).filter isContentLengthLine =
      (if hasContentLength
          (⟨200, "OK", [("Content-Type", "text/plain")], [1, 2, 3], false⟩ :
            Response).headers then
        ((⟨200, "OK", [("Content-Type", "text/plain")], [1, 2, 3], false⟩ :
          Response).headers.filter
            fun kv => eqIgnoreAsciiCase kv.1 "content-length").map
          fun kv => headerLineStr kv.1 kv.2
      else
        [headerLineStr "Content-Length"
          (toString (⟨200, "OK", [("Content-Type", "text/plain")], [1, 2, 3],
            false⟩ : Response).body.length)])) :=
  ⟨⟨rfl, by decide⟩,
    c2_content_length_lines
      (⟨200, "OK", [("Content-Type", "text/plain")], [1, 2, 3], false⟩ :
        Response) rfl (by decide)⟩
